import Mathlib

/-!
Verification development for the website time tracker extension.

The definitions below are a shallow embedding of the background
service worker (`src/background/service-worker.js`) and the shared
storage module.  JavaScript objects keyed by strings are modelled as
association lists with unique keys in insertion order; JS numbers
holding millisecond counts and timestamps are modelled as `Int`;
JS truthiness of a nullable number (where both `null` and `0` are
falsy) and of a nullable string (where both `null` and `""` are
falsy) is modelled explicitly.  Asynchronous storage calls are
modelled by passing the value read (today's daily record) as an
argument, returning the value written, and a `Bool` telling whether
the storage promise resolved; a rejected promise makes the handler
throw, which the callers either propagate or swallow exactly as the
source does.
-/

abbrev Domain := String
abbrev Millis := Int
abbrev DailyRecord := List (Domain × Millis)

/-- `INACTIVITY_TIMEOUT_MS` from `src/shared/constants.js`. -/
def INACTIVITY_TIMEOUT_MS : Millis := 15000

/-- `STORAGE_KEYS.DAILY_PREFIX` from `src/shared/constants.js` (the
reserved key namespace tag for daily records). -/
def DAILY_TAG : String := "daily:"

/-- JS property read `o[k]` on an object modelled as an association list. -/
def objGet {α : Type} (o : List (String × α)) (k : String) : Option α :=
  (o.find? (fun p => p.1 == k)).map (fun p => p.2)

/-- JS `(o[k] || 0)` for a numeric map: a missing key reads as `0`. -/
def objGetD (o : List (String × Millis)) (k : String) : Millis :=
  (objGet o k).getD 0

/-- JS property write `o[k] = v`: replaces the value of an existing key
in place, otherwise appends the key in insertion order. -/
def objSet {α : Type} (o : List (String × α)) (k : String) (v : α) : List (String × α) :=
  match o with
  | [] => [(k, v)]
  | p :: rest => if p.1 == k then (k, v) :: rest else p :: objSet rest k v

/-- The loop `for (const [domain, time] of Object.entries(pending))
todayData[domain] = (todayData[domain] || 0) + time` of
`persistPendingTime` (service-worker.js lines 357-359). -/
def mergePendingInto (today : DailyRecord) (pending : List (Domain × Millis)) : DailyRecord :=
  pending.foldl (fun acc p => objSet acc p.1 (objGetD acc p.1 + p.2)) today

/-- JS truthiness of a nullable millisecond number: `null` and `0` are falsy. -/
def truthyMs : Option Millis → Bool
  | none => false
  | some n => n != 0

/-- JS truthiness of a nullable string: `null` and `""` are falsy. -/
def truthyStr : Option String → Bool
  | none => false
  | some s => s != ""

/-- The module-level `state` object of the service worker
(service-worker.js lines 24-31; `lastPersistTime` is created lazily at
line 258, so it starts out undefined). -/
structure SessionState where
  activeTabId : Option Nat := none
  activeDomain : Option Domain := none
  sessionStartTime : Option Millis := none
  lastActivityTime : Option Millis := none
  isTracking : Bool := false
  pendingTime : List (Domain × Millis) := []
  lastPersistTime : Option Millis := none
deriving Repr, DecidableEq

/-- The state at service worker start: nothing in progress, empty buffer. -/
def initialState : SessionState := {}

/-- `addPendingTime(domain, milliseconds)` (service-worker.js lines 328-331).
The JS guard `!domain` is truthiness: it also rejects the empty string. -/
def addPendingTime (st : SessionState) (domain : Option Domain) (ms : Millis) : SessionState :=
  match domain with
  | none => st
  | some d =>
    if d = "" ∨ ms ≤ 0 then st
    else { st with pendingTime := objSet st.pendingTime d (objGetD st.pendingTime d + ms) }

/-- Result of a handler that may read and write today's daily record:
the state left behind, the record now stored under today's key, whether
a storage write was issued, and whether the handler's promise rejected. -/
structure PersistResult where
  state : SessionState
  today : DailyRecord
  wrote : Bool
  threw : Bool
deriving Repr, DecidableEq

/-- The JS condition `wasTracking && state.sessionStartTime &&
state.activeDomain` guarding the roll-forward stage of
`persistPendingTime` (service-worker.js line 341). -/
def rollGuard (st : SessionState) : Bool :=
  st.isTracking && truthyMs st.sessionStartTime && truthyStr st.activeDomain

/-- The roll-forward stage of `persistPendingTime` (service-worker.js
lines 338-349): if a session is in progress (with JS-truthy
`sessionStartTime` and `activeDomain`), credit the elapsed time since
`sessionStartTime` into the pending buffer and reset
`sessionStartTime` to `now`. -/
def rollForward (st : SessionState) (now : Millis) : SessionState :=
  if rollGuard st then
    let elapsed := now - st.sessionStartTime.getD 0
    let st1 := if elapsed > 0 then addPendingTime st st.activeDomain elapsed else st
    { st1 with sessionStartTime := some now }
  else st

/-- `persistPendingTime()` (service-worker.js lines 336-367).  `today`
is the daily record currently stored under today's key (the value
`getDailyData(todayKey)` resolves to); `ok` tells whether the storage
round trip (the read and the write) resolves.  On rejection the
function throws after the roll-forward mutations, leaving the pending
buffer intact and the stored record unchanged. -/
def persistPendingTime (st : SessionState) (now : Millis) (today : DailyRecord)
    (ok : Bool) : PersistResult :=
  let st1 := rollForward st now
  if st1.pendingTime.isEmpty then ⟨st1, today, false, false⟩
  else if ok then
    ⟨{ st1 with pendingTime := [] }, mergePendingInto today st1.pendingTime, true, false⟩
  else ⟨st1, today, false, true⟩

/-- `finalizeCurrentSession()` (service-worker.js lines 294-323).  The
JS entry guard `!state.isTracking || !state.sessionStartTime ||
!state.activeDomain` uses truthiness, and the inner
`if (state.lastActivityTime)` does too.  The `await
persistPendingTime()` happens while `isTracking` is still `true`; if
it rejects, the exception propagates before the state is reset. -/
def finalizeCurrentSession (st : SessionState) (now : Millis) (today : DailyRecord)
    (ok : Bool) : PersistResult :=
  match st.sessionStartTime, st.activeDomain with
  | some start, some d =>
    if st.isTracking = false ∨ start = 0 ∨ d = "" then ⟨st, today, false, false⟩
    else
      let elapsed :=
        match st.lastActivityTime with
        | some last =>
          if last ≠ 0 then
            if now - last ≥ INACTIVITY_TIMEOUT_MS then last - start else now - start
          else now - start
        | none => now - start
      if elapsed > 0 then
        let st1 := addPendingTime st (some d) elapsed
        let pr := persistPendingTime st1 now today ok
        if pr.threw then pr
        else
          let stf := { pr.state with isTracking := false, sessionStartTime := none, lastActivityTime := none }
          ⟨stf, pr.today, pr.wrote, false⟩
      else
        let stf := { st with isTracking := false, sessionStartTime := none, lastActivityTime := none }
        ⟨stf, today, false, false⟩
  | _, _ => ⟨st, today, false, false⟩

/-- `checkInactivityTimeout()` (service-worker.js lines 270-289), the
periodic inactivity sweep.  A `null` `sessionStartTime` coerces to `0`
in the JS subtraction, modelled with `getD 0`. -/
def checkInactivityTimeout (st : SessionState) (now : Millis) : SessionState :=
  if st.isTracking = true ∧ truthyMs st.lastActivityTime = true then
    let last := st.lastActivityTime.getD 0
    if now - last ≥ INACTIVITY_TIMEOUT_MS then
      let activeTime := last - st.sessionStartTime.getD 0
      let st1 :=
        if activeTime > 0 ∧ truthyStr st.activeDomain = true then
          addPendingTime st st.activeDomain activeTime
        else st
      { st1 with isTracking := false, sessionStartTime := none, lastActivityTime := none }
    else st
  else st

/-- Result of a message/tab handler: state, today's stored record, and
whether the handler's promise rejected. -/
structure StageResult where
  state : SessionState
  today : DailyRecord
  threw : Bool
deriving Repr, DecidableEq

/-- Stage 1 of `handleActivityDetected` (service-worker.js lines
203-219): resolve whether the signalling tab is the active one.
`query` is the outcome of `chrome.tabs.query`: `none` means the call
threw (caught, falling back to a pure status read), `some r` means it
resolved with `r` as the active tab's id (or no active tab).  The
result is `none` when the handler returns with a status read and no
state mutation, `some st0` when handling proceeds. -/
def activityResolve (st : SessionState) (tabId : Nat) (domain : Domain)
    (query : Option (Option Nat)) : Option SessionState :=
  if st.activeTabId = some tabId then some st
  else
    match query with
    | none => none
    | some r =>
      if r = some tabId then
        some { st with activeTabId := some tabId, activeDomain := some domain }
      else none

/-- Stage 2 of `handleActivityDetected` (lines 222-226): on a domain
mismatch, finalize the previous session (a rejection propagates) and
switch the domain. -/
def activityDomainSync (st : SessionState) (domain : Domain) (now : Millis)
    (today : DailyRecord) (finalizeOk : Bool) : StageResult :=
  if some domain ≠ st.activeDomain then
    let pr := finalizeCurrentSession st now today finalizeOk
    if pr.threw then ⟨pr.state, pr.today, true⟩
    else ⟨{ pr.state with activeDomain := some domain, isTracking := false }, pr.today, false⟩
  else ⟨st, today, false⟩

/-- Stage 3 of `handleActivityDetected` (lines 228-246), the inline
inactivity check: on a gap of at least the threshold, credit the time
up to the last activity, persist immediately (a rejection propagates;
note the persist call happens while the session is still marked as
tracking), and restart the session at `now`. -/
def activityGap (st : SessionState) (now : Millis) (today : DailyRecord)
    (inlineOk : Bool) : StageResult :=
  if st.isTracking = true ∧ truthyMs st.lastActivityTime = true then
    let last := st.lastActivityTime.getD 0
    if now - last ≥ INACTIVITY_TIMEOUT_MS then
      let activeTime := last - st.sessionStartTime.getD 0
      if activeTime > 0 ∧ truthyStr st.activeDomain = true then
        let st1 := addPendingTime st st.activeDomain activeTime
        let pr := persistPendingTime st1 now today inlineOk
        if pr.threw then ⟨pr.state, pr.today, true⟩
        else ⟨{ pr.state with sessionStartTime := some now }, pr.today, false⟩
      else ⟨{ st with sessionStartTime := some now }, today, false⟩
    else ⟨st, today, false⟩
  else ⟨st, today, false⟩

/-- Stages 4-5 of `handleActivityDetected` (lines 248-255): start a
session if none is running, and record the activity time. -/
def activityStart (st : SessionState) (now : Millis) : SessionState :=
  let st1 :=
    if st.isTracking = false then
      { st with isTracking := true, sessionStartTime := some now }
    else st
  { st1 with lastActivityTime := some now }

/-- Stage 6 of `handleActivityDetected` (lines 258-262): the throttled
background flush.  Its promise is not awaited and its errors are
caught, so a rejection does not abort the handler, but the state
mutations it makes before rejecting stick. -/
def activityBgFlush (st : SessionState) (now : Millis) (today : DailyRecord)
    (bgOk : Bool) : SessionState × DailyRecord :=
  let need : Bool :=
    match st.lastPersistTime with
    | none => true
    | some t => decide (now - t > 30000)
  if need then
    let pr := persistPendingTime { st with lastPersistTime := some now } now today bgOk
    (pr.state, pr.today)
  else (st, today)

/-- `handleActivityDetected(tabId, domain)` (service-worker.js lines
200-265), composed from its stages; the returned `DomainStatus` value
is not modelled, only the state and storage effects. -/
def handleActivityDetected (st : SessionState) (tabId : Nat) (domain : Domain)
    (now : Millis) (today : DailyRecord) (query : Option (Option Nat))
    (finalizeOk inlineOk bgOk : Bool) : StageResult :=
  match activityResolve st tabId domain query with
  | none => ⟨st, today, false⟩
  | some st0 =>
    let r1 := activityDomainSync st0 domain now today finalizeOk
    if r1.threw then r1
    else
      let r2 := activityGap r1.state now r1.today inlineOk
      if r2.threw then r2
      else
        let st3 := activityStart r2.state now
        let out := activityBgFlush st3 now r2.today bgOk
        ⟨out.1, out.2, false⟩

/-- `handleTabChange(tabId)` (service-worker.js lines 171-195).
`tabResult` is the outcome of `chrome.tabs.get`: `none` means it threw
(caught and logged); `some (tracked, dom)` carries `shouldTrackUrl(tab.url)`
and `extractDomain(tab.url)`, which are external URL functions not
embedded here.  The initial `await finalizeCurrentSession()` is outside
the `try`, so its rejection propagates. -/
def handleTabChange (st : SessionState) (tabId : Nat) (now : Millis)
    (today : DailyRecord) (finalizeOk : Bool)
    (tabResult : Option (Bool × Option Domain)) : StageResult :=
  let pr := finalizeCurrentSession st now today finalizeOk
  if pr.threw then ⟨pr.state, pr.today, true⟩
  else
    match tabResult with
    | none => ⟨pr.state, pr.today, false⟩
    | some (tracked, dom) =>
      if tracked = false then
        ⟨{ pr.state with activeTabId := some tabId, activeDomain := none }, pr.today, false⟩
      else
        let stf := { pr.state with activeTabId := some tabId, activeDomain := dom, sessionStartTime := none, lastActivityTime := none, isTracking := false }
        ⟨stf, pr.today, false⟩

/-- The handler invocations that can mutate the session state, with
their external inputs (timestamps, storage read results, storage
outcomes, tab query results) as event data. -/
inductive Event where
  | tabChange (tabId : Nat) (now : Millis) (today : DailyRecord)
      (finalizeOk : Bool) (tabResult : Option (Bool × Option Domain))
  | activity (tabId : Nat) (domain : Domain) (now : Millis) (today : DailyRecord)
      (query : Option (Option Nat)) (finalizeOk inlineOk bgOk : Bool)
  | sweep (now : Millis)
  | finalizeSession (now : Millis) (today : DailyRecord) (ok : Bool)
  | flush (now : Millis) (today : DailyRecord) (ok : Bool)

/-- One handler invocation, as a transition on the session state. -/
def step (st : SessionState) : Event → SessionState
  | .tabChange tabId now today fOk tr => (handleTabChange st tabId now today fOk tr).state
  | .activity tabId d now today q fOk iOk bOk =>
      (handleActivityDetected st tabId d now today q fOk iOk bOk).state
  | .sweep now => checkInactivityTimeout st now
  | .finalizeSession now today ok => (finalizeCurrentSession st now today ok).state
  | .flush now today ok => (persistPendingTime st now today ok).state

/-- States reachable from the initial state by handler invocations. -/
inductive Reachable : SessionState → Prop where
  | init : Reachable initialState
  | next (s : SessionState) (e : Event) : Reachable s → Reachable (step s e)

/-- A limit configuration `{ limit, period }` as stored by `setLimit`
(src/unnamed/part_000, the shared storage module). -/
structure LimitCfg where
  limit : Millis
  period : String
deriving Repr, DecidableEq

/-- The response object of `getDomainStatus` (service-worker.js lines
409-450).  JS object fields that are present only on some return paths
are modelled as `Option` fields defaulting to `none`. -/
structure DomainStatus where
  hasLimit : Bool
  limitExceeded : Bool
  totalTime : Option Millis := none
  limit : Option Millis := none
  period : Option String := none
  periodTime : Option Millis := none
  exceededBy : Option Millis := none
  remainingTime : Option Millis := none
  domain : Option Domain := none
deriving Repr, DecidableEq

/-- `aggregateDomains(dataArray)` from the shared storage module:
reduce a list of daily records into one domain → total map. -/
def aggregateDomains (dataArray : List DailyRecord) : List (Domain × Millis) :=
  dataArray.foldl (fun acc day =>
    day.foldl (fun a p => objSet a p.1 (objGetD a p.1 + p.2)) acc) []

/-- `getTimeForPeriod(domain, period)` (service-worker.js lines
372-404) with the storage range read abstracted: `rangeRecords` is the
list of daily records that `getTimeRange` resolves to for the period's
date window (for period `"day"` that window is exactly today, so
`rangeRecords = [todayData]`).  The `Date` arithmetic choosing the
window is external and not embedded.  The live-session guard
`state.sessionStartTime` is JS truthiness. -/
def getTimeForPeriod (st : SessionState) (now : Millis)
    (rangeRecords : List DailyRecord) (domain : Domain) : Millis :=
  let aggregated := aggregateDomains rangeRecords
  let t1 := objGetD aggregated domain
  let t2 := t1 + objGetD st.pendingTime domain
  match st.sessionStartTime with
  | some start =>
    if st.isTracking = true ∧ st.activeDomain = some domain ∧ start ≠ 0 then
      t2 + (now - start)
    else t2
  | none => t2

/-- `getDomainStatus(domain)` (service-worker.js lines 409-450).  The
storage reads are passed in: `limits` is the migrated limits table
`getLimits` resolves to, `todayData` the record under today's key, and
`rangeRecords` the range read used by `getTimeForPeriod` for the
configured period.  The entry guard `!domain` is JS truthiness, so the
empty string takes the no-domain path. -/
def getDomainStatus (st : SessionState) (now : Millis)
    (limits : List (Domain × LimitCfg)) (todayData : DailyRecord)
    (rangeRecords : List DailyRecord) (domain : Domain) : DomainStatus :=
  if domain = "" then { hasLimit := false, limitExceeded := false }
  else
    let limitConfig := objGet limits domain
    let t0 := objGetD todayData domain + objGetD st.pendingTime domain
    let todayTime :=
      match st.sessionStartTime with
      | some start =>
        if st.isTracking = true ∧ st.activeDomain = some domain ∧ start ≠ 0 then
          t0 + (now - start)
        else t0
      | none => t0
    match limitConfig with
    | none =>
      { hasLimit := false, limitExceeded := false, totalTime := some todayTime,
        domain := some domain }
    | some cfg =>
      let periodTime := getTimeForPeriod st now rangeRecords domain
      let exceeded : Bool := decide (periodTime > cfg.limit)
      { hasLimit := true, limitExceeded := exceeded, totalTime := some todayTime,
        limit := some cfg.limit, period := some cfg.period,
        periodTime := some periodTime,
        exceededBy := some (if exceeded then periodTime - cfg.limit else 0),
        remainingTime := some (max 0 (cfg.limit - periodTime)),
        domain := some domain }

/-- A raw entry of the stored limits table: either the legacy bare
number of milliseconds, or the structured `{ limit, period }` object. -/
inductive LimitValue where
  | num (n : Millis)
  | cfg (c : LimitCfg)
deriving Repr, DecidableEq

/-- The per-entry migration performed by `getLimits`
(src/unnamed/part_000 lines 83-90): a bare number becomes a daily
limit, a structured entry is kept as is. -/
def migrateLimitValue : LimitValue → LimitCfg
  | .num n => ⟨n, "day"⟩
  | .cfg c => c

/-- `getLimits()` (src/unnamed/part_000 lines 77-93): read the raw
limits table and rebuild it entry by entry into a fresh object,
migrating legacy bare-number entries on the way.  The function issues
a single storage get and no set, so it is a pure function of the read
value; `raw` is `result[STORAGE_KEYS.LIMITS] || {}`. -/
def getLimits (raw : List (Domain × LimitValue)) : List (Domain × LimitCfg) :=
  raw.foldl (fun migrated p => objSet migrated p.1 (migrateLimitValue p.2)) []

/-- A value stored in the extension's key-value store: the limits
table under the `limits` key, or a daily record under a `daily:` key. -/
inductive StoreVal where
  | limitsTable (t : List (Domain × LimitValue))
  | daily (r : DailyRecord)
deriving Repr, DecidableEq

/-- `cleanupOldData()` (src/unnamed/part_000 lines 130-145).  The date
comparison `new Date(dateStr) < cutoffDate` (with the cutoff at now
minus `DATA_RETENTION_DAYS`) is abstracted as the predicate
`isOlderThanCutoff` on the date string left after stripping the daily
tag; the key filter and the removal are embedded exactly.  Returns the
store after the removal together with the list of removed keys. -/
def cleanupOldData (store : List (String × StoreVal))
    (isOlderThanCutoff : String → Bool) :
    List (String × StoreVal) × List String :=
  let keysToRemove := (store.map Prod.fst).filter
    (fun k => k.startsWith DAILY_TAG && isOlderThanCutoff (k.drop DAILY_TAG.length))
  if keysToRemove.length > 0 then
    (store.filter (fun p => !(keysToRemove.contains p.1)), keysToRemove)
  else (store, [])

/-- The run behind claim C1's failing input: same-domain activity from
the active tab at t=1000, t=5000, and t=25000 (a 20000 ms gap before
the third signal), with all storage calls succeeding and the stored
daily record starting empty. -/
def c1Run : StageResult :=
  let r1 := handleActivityDetected initialState 1 "a" 1000 [] (some (some 1)) true true true
  let r2 := handleActivityDetected r1.state 1 "a" 5000 r1.today (some (some 1)) true true true
  handleActivityDetected r2.state 1 "a" 25000 r2.today (some (some 1)) true true true

/-- The state behind claim C2's failing input: a session on domain
`"a"` started at t=1000 whose last activity was at t=5000 (exactly the
state two activity signals leave behind). -/
def c2State : SessionState :=
  { activeTabId := some 1, activeDomain := some "a", sessionStartTime := some 1000, lastActivityTime := some 5000, isTracking := true, pendingTime := [], lastPersistTime := some 1000 }

/-- A tracked session on domain `"a"` started at t=1 with last
activity at t=10001, used to witness the amended claim C4 on the
spec's scenario shifted to nonzero timestamps. -/
def c4WitnessState : SessionState :=
  { activeTabId := some 1, activeDomain := some "a", sessionStartTime := some 1, lastActivityTime := some 10001, isTracking := true, pendingTime := [], lastPersistTime := some 1 }

/-- The state behind claim C4's counterexample: the state after an
activity signal at t=0, i.e. a tracked session whose `sessionStartTime`
is the (non-null but JS-falsy) timestamp `0`. -/
def c4State : SessionState :=
  { activeTabId := some 1, activeDomain := some "a", sessionStartTime := some 0, lastActivityTime := some 0, isTracking := true, pendingTime := [], lastPersistTime := some 0 }

example : (addPendingTime initialState (some "a") 5).pendingTime = [("a", 5)] := by decide
example : (addPendingTime initialState (some "a") 0).pendingTime = [] := by decide
example : (rollForward { initialState with isTracking := true, sessionStartTime := some 1000, activeDomain := some "a" } 3000).pendingTime = [("a", 2000)] := by decide


/-- Events whose external inputs match what real executions deliver:
`Date.now()` is a positive timestamp, and the content script never
reports an empty domain string (it bails out when
`extractDomain(location.href)` is falsy). -/
def GoodEvent : Event → Prop
  | .tabChange _ now _ _ _ => 0 < now
  | .activity _ d now _ _ _ _ _ => 0 < now ∧ d ≠ ""
  | .sweep _ => True
  | .finalizeSession now _ _ => 0 < now
  | .flush now _ _ => 0 < now

/-- States reachable from the initial state by handler invocations
whose inputs satisfy `GoodEvent`. -/
inductive ReachableG : SessionState → Prop where
  | init : ReachableG initialState
  | next (s : SessionState) (e : Event) : ReachableG s → GoodEvent e → ReachableG (step s e)

/-- The inductive strengthening of the session invariant: a tracked
session has a JS-truthy (nonzero) start timestamp and a JS-truthy
(non-empty) domain, and the pending buffer holds only non-negative
amounts. -/
def StrongInv (st : SessionState) : Prop :=
  (st.isTracking = true →
    (∃ t, st.sessionStartTime = some t ∧ t ≠ 0) ∧
    (∃ d, st.activeDomain = some d ∧ d ≠ "")) ∧
  (∀ p ∈ st.pendingTime, 0 ≤ p.2)

/-- The event sequence behind claim C6's counterexample: an activity
signal stamped `t = 0` starts a session whose `sessionStartTime` is the
JS-falsy timestamp `0`; a subsequent change to an untrackable tab makes
`finalizeCurrentSession` return through its truthiness guard without
stopping the session, and then nulls `activeDomain`. -/
def c6BadState : SessionState :=
  step (step initialState (.activity 1 "a" 0 [] (some (some 1)) true true true))
    (.tabChange 1 0 [] true (some (false, none)))


/-! ### Helper lemmas about the object operations -/

theorem objGetD_nonneg (o : List (String × Millis)) (k : String)
    (h : ∀ p ∈ o, 0 ≤ p.2) : 0 ≤ objGetD o k := by
  unfold objGetD objGet
  cases hf : o.find? (fun p => p.1 == k) with
  | none => simp
  | some pr => simpa using h pr (List.mem_of_find?_eq_some hf)

theorem objSet_nonneg (o : List (String × Millis)) (k : String) (v : Millis)
    (h : ∀ p ∈ o, 0 ≤ p.2) (hv : 0 ≤ v) : ∀ p ∈ objSet o k v, 0 ≤ p.2 := by
  induction o with
  | nil =>
    intro p hp
    simp only [objSet, List.mem_singleton] at hp
    simp [hp, hv]
  | cons q rest ih =>
    intro p hp
    simp only [objSet] at hp
    split at hp
    · rcases List.mem_cons.mp hp with hq | hq
      · simp [hq, hv]
      · exact h p (List.mem_cons_of_mem _ hq)
    · rcases List.mem_cons.mp hp with hq | hq
      · subst hq
        exact h p (List.mem_cons_self _ _)
      · exact ih (fun r hr => h r (List.mem_cons_of_mem _ hr)) p hq

theorem objGet_objSet_self {α : Type} (o : List (String × α)) (k : String) (v : α) :
    objGet (objSet o k v) k = some v := by
  induction o with
  | nil => simp [objSet, objGet, List.find?]
  | cons q rest ih =>
    simp only [objSet]
    split
    · simp [objGet, List.find?]
    · next hq =>
      unfold objGet at ih ⊢
      simp only [List.find?]
      simp only [hq]
      exact ih

theorem objGetD_objSet_self (o : List (String × Millis)) (k : String) (v : Millis) :
    objGetD (objSet o k v) k = v := by
  unfold objGetD
  rw [objGet_objSet_self]
  rfl

theorem objSet_of_not_key {α : Type} (o : List (String × α)) (k : String) (v : α)
    (h : ∀ p ∈ o, p.1 ≠ k) : objSet o k v = o ++ [(k, v)] := by
  induction o with
  | nil => rfl
  | cons q rest ih =>
    simp only [objSet]
    have hq : (q.1 == k) = false := by
      simpa using h q (List.mem_cons_self _ _)
    rw [hq]
    simp only [Bool.false_eq_true, if_false]
    rw [ih (fun r hr => h r (List.mem_cons_of_mem _ hr))]
    simp

/-! ### Helper lemmas about the session-state operations -/

theorem addPendingTime_isTracking (st : SessionState) (d : Option Domain) (ms : Millis) :
    (addPendingTime st d ms).isTracking = st.isTracking := by
  cases d with
  | none => rfl
  | some dd => by_cases h : dd = "" ∨ ms ≤ 0 <;> simp [addPendingTime, h]

theorem addPendingTime_sessionStartTime (st : SessionState) (d : Option Domain) (ms : Millis) :
    (addPendingTime st d ms).sessionStartTime = st.sessionStartTime := by
  cases d with
  | none => rfl
  | some dd => by_cases h : dd = "" ∨ ms ≤ 0 <;> simp [addPendingTime, h]

theorem addPendingTime_activeDomain (st : SessionState) (d : Option Domain) (ms : Millis) :
    (addPendingTime st d ms).activeDomain = st.activeDomain := by
  cases d with
  | none => rfl
  | some dd => by_cases h : dd = "" ∨ ms ≤ 0 <;> simp [addPendingTime, h]

theorem addPendingTime_lastActivityTime (st : SessionState) (d : Option Domain) (ms : Millis) :
    (addPendingTime st d ms).lastActivityTime = st.lastActivityTime := by
  cases d with
  | none => rfl
  | some dd => by_cases h : dd = "" ∨ ms ≤ 0 <;> simp [addPendingTime, h]

theorem addPendingTime_nonneg (st : SessionState) (d : Option Domain) (ms : Millis)
    (h : ∀ p ∈ st.pendingTime, 0 ≤ p.2) :
    ∀ p ∈ (addPendingTime st d ms).pendingTime, 0 ≤ p.2 := by
  cases d with
  | none => exact h
  | some dd =>
    by_cases hc : dd = "" ∨ ms ≤ 0
    · simpa [addPendingTime, hc] using h
    · push_neg at hc
      obtain ⟨hne, hpos⟩ := hc
      have h0 : 0 ≤ objGetD st.pendingTime dd := objGetD_nonneg _ _ h
      simp only [addPendingTime]
      rw [if_neg (by push_neg; exact ⟨hne, hpos⟩)]
      exact objSet_nonneg _ _ _ h (add_nonneg h0 (le_of_lt hpos))

theorem rollForward_isTracking (st : SessionState) (now : Millis) :
    (rollForward st now).isTracking = st.isTracking := by
  unfold rollForward
  split
  · dsimp only
    split <;> simp [addPendingTime_isTracking]
  · rfl

theorem rollForward_activeDomain (st : SessionState) (now : Millis) :
    (rollForward st now).activeDomain = st.activeDomain := by
  unfold rollForward
  split
  · dsimp only
    split <;> simp [addPendingTime_activeDomain]
  · rfl

theorem rollForward_lastActivityTime (st : SessionState) (now : Millis) :
    (rollForward st now).lastActivityTime = st.lastActivityTime := by
  unfold rollForward
  split
  · dsimp only
    split <;> simp [addPendingTime_lastActivityTime]
  · rfl

theorem rollForward_sessionStartTime (st : SessionState) (now : Millis) :
    (rollForward st now).sessionStartTime = st.sessionStartTime ∨
    (rollForward st now).sessionStartTime = some now := by
  unfold rollForward
  split
  · right
    rfl
  · left
    rfl

theorem rollForward_cases (st : SessionState) (now : Millis) :
    rollForward st now = st ∨ (rollForward st now).sessionStartTime = some now := by
  unfold rollForward
  split
  · right
    rfl
  · left
    rfl

theorem rollForward_nonneg (st : SessionState) (now : Millis)
    (h : ∀ p ∈ st.pendingTime, 0 ≤ p.2) :
    ∀ p ∈ (rollForward st now).pendingTime, 0 ≤ p.2 := by
  unfold rollForward
  split
  · dsimp only
    split
    · simpa using addPendingTime_nonneg _ _ _ h
    · simpa using h
  · exact h

theorem rollForward_start_of_tracking (st : SessionState) (now : Millis)
    (t : Millis) (d : Domain)
    (hT : st.isTracking = true) (hS : st.sessionStartTime = some t) (ht : t ≠ 0)
    (hD : st.activeDomain = some d) (hd : d ≠ "") :
    (rollForward st now).sessionStartTime = some now := by
  have hg : rollGuard st = true := by
    unfold rollGuard
    rw [hT, hS, hD]
    simp [truthyMs, truthyStr, ht, hd]
  unfold rollForward
  rw [if_pos hg]

theorem set_start_eta (st : SessionState) (v : Option Millis)
    (h : st.sessionStartTime = v) : { st with sessionStartTime := v } = st := by
  cases st
  subst h
  rfl

theorem rollForward_self_of_start (st : SessionState) (now : Millis)
    (h : st.sessionStartTime = some now) : rollForward st now = st := by
  unfold rollForward
  split
  · dsimp only
    rw [h]
    simp only [Option.getD_some, sub_self]
    rw [if_neg (by simp)]
    exact set_start_eta st (some now) h
  · rfl

theorem rollForward_idem (st : SessionState) (now : Millis) :
    rollForward (rollForward st now) now = rollForward st now := by
  rcases rollForward_cases st now with h | h
  · rw [h]
    rw [h]
  · exact rollForward_self_of_start _ _ h

theorem persist_state_cases (st : SessionState) (now : Millis) (today : DailyRecord)
    (ok : Bool) :
    (persistPendingTime st now today ok).state = rollForward st now ∨
    (persistPendingTime st now today ok).state
      = { rollForward st now with pendingTime := [] } := by
  unfold persistPendingTime
  dsimp only
  split
  · exact Or.inl rfl
  · split
    · exact Or.inr rfl
    · exact Or.inl rfl

theorem persist_isTracking (st : SessionState) (now : Millis) (today : DailyRecord)
    (ok : Bool) :
    (persistPendingTime st now today ok).state.isTracking = st.isTracking := by
  rcases persist_state_cases st now today ok with he | he <;> rw [he]
  · exact rollForward_isTracking st now
  · exact rollForward_isTracking st now

theorem persist_activeDomain (st : SessionState) (now : Millis) (today : DailyRecord)
    (ok : Bool) :
    (persistPendingTime st now today ok).state.activeDomain = st.activeDomain := by
  rcases persist_state_cases st now today ok with he | he <;> rw [he]
  · exact rollForward_activeDomain st now
  · exact rollForward_activeDomain st now

theorem persist_strongInv (st : SessionState) (now : Millis) (today : DailyRecord)
    (ok : Bool) (h : StrongInv st) (hnow : now ≠ 0) :
    StrongInv (persistPendingTime st now today ok).state := by
  obtain ⟨hT, hP⟩ := h
  rcases persist_state_cases st now today ok with he | he <;> rw [he]
  · refine ⟨?_, rollForward_nonneg st now hP⟩
    intro htr
    rw [rollForward_isTracking] at htr
    obtain ⟨⟨t, hS, ht⟩, ⟨d, hD, hd⟩⟩ := hT htr
    refine ⟨⟨now, rollForward_start_of_tracking st now t d htr hS ht hD hd, hnow⟩, ⟨d, ?_, hd⟩⟩
    rw [rollForward_activeDomain]
    exact hD
  · refine ⟨?_, by intro p hp; simp at hp⟩
    intro htr
    have htr2 : (rollForward st now).isTracking = true := htr
    rw [rollForward_isTracking] at htr2
    obtain ⟨⟨t, hS, ht⟩, ⟨d, hD, hd⟩⟩ := hT htr2
    refine ⟨⟨now, ?_, hnow⟩, ⟨d, ?_, hd⟩⟩
    · exact rollForward_start_of_tracking st now t d htr2 hS ht hD hd
    · show (rollForward st now).activeDomain = some d
      rw [rollForward_activeDomain]
      exact hD

theorem addPendingTime_strongInv (st : SessionState) (d : Option Domain) (ms : Millis)
    (h : StrongInv st) : StrongInv (addPendingTime st d ms) := by
  obtain ⟨hT, hP⟩ := h
  refine ⟨?_, addPendingTime_nonneg st d ms hP⟩
  intro htr
  rw [addPendingTime_isTracking] at htr
  obtain ⟨⟨t, hS, ht⟩, ⟨dd, hD, hd⟩⟩ := hT htr
  rw [addPendingTime_sessionStartTime, addPendingTime_activeDomain]
  exact ⟨⟨t, hS, ht⟩, ⟨dd, hD, hd⟩⟩

theorem finalize_strong (st : SessionState) (now : Millis) (today : DailyRecord)
    (ok : Bool) (h : StrongInv st) (hnow : now ≠ 0) :
    StrongInv (finalizeCurrentSession st now today ok).state ∧
    ((finalizeCurrentSession st now today ok).threw = false →
      (finalizeCurrentSession st now today ok).state.isTracking = false) := by
  unfold finalizeCurrentSession
  split
  · rename_i start d hS hD
    split
    · rename_i hguard
      refine ⟨h, fun _ => ?_⟩
      by_cases htr : st.isTracking = true
      · exfalso
        obtain ⟨⟨t, hS2, ht⟩, ⟨dd, hD2, hd⟩⟩ := h.1 htr
        rw [hS] at hS2
        rw [hD] at hD2
        cases hS2
        cases hD2
        rcases hguard with hg | hg | hg
        · rw [htr] at hg
          exact absurd hg (by simp)
        · exact ht hg
        · exact hd hg
      · simpa using htr
    · dsimp only
      split
      · split
        · rename_i hthrew
          refine ⟨persist_strongInv _ now today ok (addPendingTime_strongInv st _ _ h) hnow, ?_⟩
          intro hq
          exact absurd hq (by rw [hthrew]; simp)
        · refine ⟨⟨fun htr => absurd htr (by simp), ?_⟩, fun _ => rfl⟩
          exact (persist_strongInv _ now today ok (addPendingTime_strongInv st _ _ h) hnow).2
      · exact ⟨⟨fun htr => absurd htr (by simp), h.2⟩, fun _ => rfl⟩
  · rename_i hfall
    refine ⟨h, fun _ => ?_⟩
    by_cases htr : st.isTracking = true
    · exfalso
      obtain ⟨⟨t, hS2, _⟩, ⟨dd, hD2, _⟩⟩ := h.1 htr
      exact hfall t dd hS2 hD2
    · simpa using htr

theorem sweep_strongInv (st : SessionState) (now : Millis) (h : StrongInv st) :
    StrongInv (checkInactivityTimeout st now) := by
  unfold checkInactivityTimeout
  split
  · dsimp only
    split
    · refine ⟨by intro htr; simp at htr, ?_⟩
      split
      · exact (addPendingTime_strongInv st _ _ h).2
      · exact h.2
    · exact h
  · exact h

theorem resolve_strong (st : SessionState) (tabId : Nat) (d : Domain)
    (q : Option (Option Nat)) (st0 : SessionState) (h : StrongInv st) (hd : d ≠ "")
    (he : activityResolve st tabId d q = some st0) : StrongInv st0 := by
  unfold activityResolve at he
  split at he
  · cases he
    exact h
  · split at he
    · simp at he
    · split at he
      · cases he
        refine ⟨?_, h.2⟩
        intro htr
        obtain ⟨⟨t, hS, ht⟩, _⟩ := h.1 htr
        exact ⟨⟨t, hS, ht⟩, ⟨d, rfl, hd⟩⟩
      · simp at he

theorem domainSync_strong (st : SessionState) (d : Domain) (now : Millis)
    (today : DailyRecord) (fOk : Bool) (h : StrongInv st) (hnow : now ≠ 0) :
    StrongInv (activityDomainSync st d now today fOk).state ∧
    ((activityDomainSync st d now today fOk).threw = false →
      (activityDomainSync st d now today fOk).state.activeDomain = some d) := by
  unfold activityDomainSync
  split
  · dsimp only
    split
    · exact ⟨(finalize_strong st now today fOk h hnow).1, fun hq => absurd hq (by simp)⟩
    · refine ⟨⟨fun htr => absurd htr (by simp),
        (finalize_strong st now today fOk h hnow).1.2⟩, fun _ => rfl⟩
  · rename_i hne
    rw [not_ne_iff] at hne
    exact ⟨h, fun _ => hne.symm⟩

theorem gap_strong (st : SessionState) (now : Millis) (today : DailyRecord)
    (iOk : Bool) (h : StrongInv st) (hnow : now ≠ 0) :
    StrongInv (activityGap st now today iOk).state ∧
    ((activityGap st now today iOk).threw = false →
      (activityGap st now today iOk).state.activeDomain = st.activeDomain) := by
  unfold activityGap
  split
  · rename_i hcond
    dsimp only
    split
    · split
      · split
        · refine ⟨persist_strongInv _ now today iOk (addPendingTime_strongInv st _ _ h) hnow,
            fun hq => absurd hq (by simp)⟩
        · constructor
          · constructor
            · intro _
              obtain ⟨_, ⟨dd, hD, hd⟩⟩ := h.1 hcond.1
              refine ⟨⟨now, rfl, hnow⟩, ⟨dd, ?_, hd⟩⟩
              simp only [persist_activeDomain, addPendingTime_activeDomain]
              exact hD
            · exact (persist_strongInv _ now today iOk (addPendingTime_strongInv st _ _ h) hnow).2
          · intro _
            simp only [persist_activeDomain, addPendingTime_activeDomain]
      · refine ⟨⟨?_, h.2⟩, fun _ => rfl⟩
        intro htr
        obtain ⟨_, ⟨dd, hD, hd⟩⟩ := h.1 htr
        exact ⟨⟨now, rfl, hnow⟩, ⟨dd, hD, hd⟩⟩
    · exact ⟨h, fun _ => rfl⟩
  · exact ⟨h, fun _ => rfl⟩

theorem start_strong (st : SessionState) (now : Millis) (d : Domain)
    (h : StrongInv st) (hD : st.activeDomain = some d) (hd : d ≠ "") (hnow : now ≠ 0) :
    StrongInv (activityStart st now) := by
  unfold activityStart
  dsimp only
  split
  · exact ⟨fun _ => ⟨⟨now, rfl, hnow⟩, ⟨d, hD, hd⟩⟩, h.2⟩
  · refine ⟨?_, h.2⟩
    intro htr
    obtain ⟨⟨t, hS, ht⟩, ⟨dd, hDD, hdd⟩⟩ := h.1 htr
    exact ⟨⟨t, hS, ht⟩, ⟨dd, hDD, hdd⟩⟩

theorem bg_strong (st : SessionState) (now : Millis) (today : DailyRecord) (bOk : Bool)
    (h : StrongInv st) (hnow : now ≠ 0) :
    StrongInv (activityBgFlush st now today bOk).1 := by
  unfold activityBgFlush
  dsimp only
  split
  · exact persist_strongInv _ now today bOk ⟨h.1, h.2⟩ hnow
  · exact h

theorem start_activeDomain (st : SessionState) (now : Millis) :
    (activityStart st now).activeDomain = st.activeDomain := by
  unfold activityStart
  dsimp only
  split <;> rfl

theorem activity_strong (st : SessionState) (tabId : Nat) (d : Domain) (now : Millis)
    (today : DailyRecord) (q : Option (Option Nat)) (fOk iOk bOk : Bool)
    (h : StrongInv st) (hnow : now ≠ 0) (hd : d ≠ "") :
    StrongInv (handleActivityDetected st tabId d now today q fOk iOk bOk).state := by
  unfold handleActivityDetected
  cases hres : activityResolve st tabId d q with
  | none => exact h
  | some st0 =>
    have h0 := resolve_strong st tabId d q st0 h hd hres
    have h1 := domainSync_strong st0 d now today fOk h0 hnow
    dsimp only
    split
    · exact h1.1
    · rename_i hth1
      have hnt1 : (activityDomainSync st0 d now today fOk).threw = false := by
        simpa using hth1
      have h2 := gap_strong (activityDomainSync st0 d now today fOk).state now
        (activityDomainSync st0 d now today fOk).today iOk h1.1 hnow
      split
      · exact h2.1
      · rename_i hth2
        have hnt2 : (activityGap (activityDomainSync st0 d now today fOk).state now
            (activityDomainSync st0 d now today fOk).today iOk).threw = false := by
          simpa using hth2
        have hdom : (activityGap (activityDomainSync st0 d now today fOk).state now
            (activityDomainSync st0 d now today fOk).today iOk).state.activeDomain
            = some d := by
          rw [h2.2 hnt2]
          exact h1.2 hnt1
        exact bg_strong _ now _ bOk (start_strong _ now d h2.1 hdom hd hnow) hnow

theorem tabChange_strong (st : SessionState) (tabId : Nat) (now : Millis)
    (today : DailyRecord) (fOk : Bool) (tr : Option (Bool × Option Domain))
    (h : StrongInv st) (hnow : now ≠ 0) :
    StrongInv (handleTabChange st tabId now today fOk tr).state := by
  unfold handleTabChange
  have hf := finalize_strong st now today fOk h hnow
  dsimp only
  split
  · exact hf.1
  · rename_i hth
    have hnt : (finalizeCurrentSession st now today fOk).threw = false := by simpa using hth
    have huntr := hf.2 hnt
    split
    · exact hf.1
    · split
      · refine ⟨?_, hf.1.2⟩
        intro htr
        have htr2 : (finalizeCurrentSession st now today fOk).state.isTracking = true := htr
        rw [huntr] at htr2
        exact absurd htr2 (by simp)
      · exact ⟨fun htr => absurd htr (by simp), hf.1.2⟩

theorem step_strong (s : SessionState) (e : Event) (h : StrongInv s) (hg : GoodEvent e) :
    StrongInv (step s e) := by
  cases e with
  | tabChange tabId now today fOk tr =>
    exact tabChange_strong s tabId now today fOk tr h (ne_of_gt hg)
  | activity tabId d now today q fOk iOk bOk =>
    have hg2 : 0 < now ∧ d ≠ "" := hg
    exact activity_strong s tabId d now today q fOk iOk bOk h (ne_of_gt hg2.1) hg2.2
  | sweep now => exact sweep_strongInv s now h
  | finalizeSession now today ok =>
    exact (finalize_strong s now today ok h (ne_of_gt hg)).1
  | flush now today ok =>
    exact persist_strongInv s now today ok h (ne_of_gt hg)

theorem initial_strong : StrongInv initialState := by
  constructor
  · intro htr
    simp [initialState] at htr
  · intro p hp
    simp [initialState] at hp

theorem persist_ok_pending (st : SessionState) (now : Millis) (today : DailyRecord) :
    (persistPendingTime st now today true).state.pendingTime = [] := by
  unfold persistPendingTime
  dsimp only
  split
  · rename_i hemp
    simpa using hemp
  · rfl

theorem persist_fail_state (st : SessionState) (now : Millis) (today : DailyRecord) :
    (persistPendingTime st now today false).state = rollForward st now := by
  unfold persistPendingTime
  dsimp only
  split
  · rfl
  · simp

theorem persist_fail_today (st : SessionState) (now : Millis) (today : DailyRecord) :
    (persistPendingTime st now today false).today = today := by
  unfold persistPendingTime
  dsimp only
  split
  · rfl
  · simp

theorem persist_fail_wrote (st : SessionState) (now : Millis) (today : DailyRecord) :
    (persistPendingTime st now today false).wrote = false := by
  unfold persistPendingTime
  dsimp only
  split
  · rfl
  · simp

theorem rollGuard_pending_erase (st : SessionState) :
    rollGuard { st with pendingTime := ([] : List (Domain × Millis)) } = rollGuard st := rfl

theorem rollForward_fix_pending_erase (st : SessionState) (now : Millis) :
    rollForward { rollForward st now with pendingTime := [] } now
      = { rollForward st now with pendingTime := [] } := by
  by_cases hg : rollGuard st = true
  · have hstart : (rollForward st now).sessionStartTime = some now := by
      unfold rollForward
      rw [if_pos hg]
    exact rollForward_self_of_start _ now hstart
  · have hfix : rollForward st now = st := by
      unfold rollForward
      rw [if_neg hg]
    rw [hfix]
    unfold rollForward
    rw [rollGuard_pending_erase]
    rw [if_neg hg]

theorem roll_of_persist_state (st : SessionState) (now : Millis) (today : DailyRecord)
    (ok : Bool) :
    rollForward (persistPendingTime st now today ok).state now
      = (persistPendingTime st now today ok).state := by
  rcases persist_state_cases st now today ok with he | he <;> rw [he]
  · exact rollForward_idem st now
  · exact rollForward_fix_pending_erase st now

theorem getLimits_foldl_aux (raw : List (Domain × LimitValue))
    (acc : List (Domain × LimitCfg))
    (hdisj : ∀ p ∈ raw, ∀ q ∈ acc, q.1 ≠ p.1)
    (hnd : (raw.map Prod.fst).Nodup) :
    raw.foldl (fun migrated p => objSet migrated p.1 (migrateLimitValue p.2)) acc
      = acc ++ raw.map (fun p => (p.1, migrateLimitValue p.2)) := by
  induction raw generalizing acc with
  | nil => simp
  | cons q rest ih =>
    have hnd1 : (q.1 :: rest.map Prod.fst).Nodup := by
      rw [List.map_cons] at hnd
      exact hnd
    have hq_not : q.1 ∉ rest.map Prod.fst := (List.nodup_cons.mp hnd1).1
    have hnd2 : (rest.map Prod.fst).Nodup := (List.nodup_cons.mp hnd1).2
    simp only [List.foldl_cons]
    rw [objSet_of_not_key acc q.1 _ (fun r hr => hdisj q (List.mem_cons_self _ _) r hr)]
    rw [ih (acc ++ [(q.1, migrateLimitValue q.2)]) ?_ hnd2]
    · simp
    · intro p hp r hr
      rcases List.mem_append.mp hr with h1 | h1
      · exact hdisj p (List.mem_cons_of_mem _ hp) r h1
      · simp only [List.mem_singleton] at h1
        subst h1
        intro hcontra
        exact hq_not (by rw [hcontra]; exact List.mem_map.mpr ⟨p, hp, rfl⟩)

theorem cleanup_keysToRemove_mem (store : List (String × StoreVal))
    (isOld : String → Bool) (k : String) :
    k ∈ (cleanupOldData store isOld).2 ↔
      k ∈ store.map Prod.fst ∧
      (k.startsWith DAILY_TAG && isOld (k.drop DAILY_TAG.length)) = true := by
  unfold cleanupOldData
  dsimp only
  split
  · exact List.mem_filter
  · rename_i hlen
    have hnil : (store.map Prod.fst).filter
        (fun k => k.startsWith DAILY_TAG && isOld (k.drop DAILY_TAG.length)) = [] := by
      rcases List.eq_nil_or_concat ((store.map Prod.fst).filter _) with h | ⟨l, a, h⟩
      · exact h
      · exfalso
        apply hlen
        rw [h]
        simp
    constructor
    · intro hk
      simp at hk
    · intro ⟨hmem, hpred⟩
      exfalso
      have : k ∈ (store.map Prod.fst).filter
          (fun k => k.startsWith DAILY_TAG && isOld (k.drop DAILY_TAG.length)) :=
        List.mem_filter.mpr ⟨hmem, hpred⟩
      rw [hnil] at this
      simp at this

theorem cleanup_store_mem (store : List (String × StoreVal)) (isOld : String → Bool)
    (k : String) (v : StoreVal) :
    (k, v) ∈ (cleanupOldData store isOld).1 ↔
      (k, v) ∈ store ∧
      ¬((k.startsWith DAILY_TAG && isOld (k.drop DAILY_TAG.length)) = true) := by
  unfold cleanupOldData
  dsimp only
  split
  · rw [List.mem_filter]
    constructor
    · rintro ⟨hs, hc⟩
      have hnotin : k ∉ (store.map Prod.fst).filter
          (fun k => k.startsWith DAILY_TAG && isOld (k.drop DAILY_TAG.length)) := by
        intro hin
        rw [← List.elem_iff] at hin
        simp only [List.contains] at hc
        rw [hin] at hc
        simp at hc
      exact ⟨hs, fun hpred =>
        hnotin (List.mem_filter.mpr ⟨List.mem_map.mpr ⟨(k, v), hs, rfl⟩, hpred⟩)⟩
    · rintro ⟨hs, hnp⟩
      refine ⟨hs, ?_⟩
      have hnotin : k ∉ (store.map Prod.fst).filter
          (fun k => k.startsWith DAILY_TAG && isOld (k.drop DAILY_TAG.length)) := by
        intro hin
        exact hnp (List.mem_filter.mp hin).2
      have : ((store.map Prod.fst).filter
          (fun k => k.startsWith DAILY_TAG && isOld (k.drop DAILY_TAG.length))).contains k
          = false := by
        rw [← Bool.not_eq_true]
        intro hcon
        exact hnotin (List.elem_iff.mp hcon)
      simp only [this, Bool.not_false]
  · rename_i hlen
    constructor
    · intro hs
      refine ⟨hs, fun hpred => ?_⟩
      apply hlen
      exact List.length_pos_of_mem
        (List.mem_filter.mpr ⟨List.mem_map.mpr ⟨(k, v), hs, rfl⟩, hpred⟩)
    · exact fun h => h.1

theorem persist_of_empty_fix (st2 : SessionState) (now : Millis) (t2 : DailyRecord)
    (hemp : st2.pendingTime = []) (hfix : rollForward st2 now = st2) :
    persistPendingTime st2 now t2 true = ⟨st2, t2, false, false⟩ := by
  unfold persistPendingTime
  dsimp only
  rw [hfix, hemp]
  rfl

/-! ### Claim theorems -/

/-- C1: evaluation of the code at the failing input.  The spec says an
activity signal arriving after a gap of at least 15000 ms credits only
`lastActivityTime − sessionStartTime` to the interrupted session and
flushes that amount.  For activity on domain `"a"` from the active tab
at t=1000, t=5000 and t=25000, that credit is 4000 ms, but the code
durably writes 28000 ms: the immediate flush's roll-forward stage runs
while the session is still marked tracking with the old
`sessionStartTime`, so it additionally credits the wall-clock elapsed
time `now − sessionStartTime = 24000` — the idle gap is credited. -/
theorem C1_inline_gap_overcredit :
    c1Run.today = [("a", 28000)] ∧
    c1Run.state.sessionStartTime = some 25000 ∧
    c1Run.state.isTracking = true := by decide

/-- C2: evaluation of the code at the failing input.  The spec says
finalizing a session tracking `"a"` with `sessionStartTime = 1000`,
`lastActivityTime = 5000` at `now = 10000` (gap 5000 < 15000) credits
`now − sessionStartTime = 9000` ms and flushes it.  The code writes
18000 ms: `finalizeCurrentSession` adds 9000 to the pending buffer and
then awaits `persistPendingTime` while `isTracking` is still `true`,
whose roll-forward stage credits another `now − sessionStartTime =
9000` before the write.  The transition to IDLE itself does happen. -/
theorem C2_finalize_double_credit :
    (finalizeCurrentSession c2State 10000 [] true).today = [("a", 18000)] ∧
    (finalizeCurrentSession c2State 10000 [] true).state.isTracking = false ∧
    (finalizeCurrentSession c2State 10000 [] true).state.sessionStartTime = none ∧
    (finalizeCurrentSession c2State 10000 [] true).state.lastActivityTime = none := by
  decide

/-- C3: `persistPendingTime` is atomic with respect to the pending
buffer: a successful round trip always leaves the buffer empty; when
the storage read or write rejects, no write is issued, the stored
record is unchanged, and the buffer holds exactly the per-domain
amounts of the rolled-forward state — the amounts that were about to
be written — so an immediately retried successful flush writes exactly
those amounts merged into today's record (at-least-once delivery). -/
theorem C3_flush_retry_preserves_pending (st : SessionState) (now : Millis)
    (today : DailyRecord) :
    (persistPendingTime st now today true).state.pendingTime = [] ∧
    (persistPendingTime st now today false).state.pendingTime
      = (rollForward st now).pendingTime ∧
    (persistPendingTime st now today false).today = today ∧
    (persistPendingTime st now today false).wrote = false ∧
    (persistPendingTime (persistPendingTime st now today false).state now today true).today
      = mergePendingInto today (persistPendingTime st now today false).state.pendingTime := by
  refine ⟨persist_ok_pending st now today, by rw [persist_fail_state],
    persist_fail_today st now today, persist_fail_wrote st now today, ?_⟩
  rw [persist_fail_state]
  unfold persistPendingTime
  dsimp only
  rw [rollForward_idem]
  split
  · rename_i hemp
    rw [List.isEmpty_iff.mp hemp]
    rfl
  · rfl

/-- C4 counterexample: the claim's hypotheses ("isTracking true,
sessionStartTime and activeDomain non-null") are satisfied by the
state an activity signal at t=0 leaves behind, yet `persistPendingTime`
at now=10000 credits nothing, issues no write, and does not reset
`sessionStartTime` to now: the JS guard `state.sessionStartTime` is a
truthiness test and the non-null timestamp `0` is falsy.  In
particular the claim's scenario (activity at t=0 and t=10000 followed
by a flush) credits 0, not 10000. -/
theorem C4_counterexample :
    c4State.isTracking = true ∧ c4State.sessionStartTime = some 0 ∧
    c4State.activeDomain = some "a" ∧
    (persistPendingTime c4State 10000 [] true).state.pendingTime = [] ∧
    (persistPendingTime c4State 10000 [] true).state.sessionStartTime = some 0 ∧
    (persistPendingTime c4State 10000 [] true).wrote = false := by decide

/-- C4 (amended): when `persistPendingTime` runs while a session is
tracking with a JS-truthy (nonzero) `sessionStartTime` and a JS-truthy
(non-empty) `activeDomain`, and wall-clock time has advanced, its
roll-forward stage credits `now − sessionStartTime` into the pending
buffer for `activeDomain`, and the call leaves `sessionStartTime = now`
with `isTracking` still true (the session keeps running). -/
theorem C4_roll_forward_amended (st : SessionState) (now : Millis)
    (today : DailyRecord) (ok : Bool) (d : Domain) (start : Millis)
    (hT : st.isTracking = true) (hS : st.sessionStartTime = some start)
    (h0 : start ≠ 0) (hD : st.activeDomain = some d) (hd : d ≠ "")
    (hlt : start < now) :
    objGetD (rollForward st now).pendingTime d
      = objGetD st.pendingTime d + (now - start) ∧
    (persistPendingTime st now today ok).state.sessionStartTime = some now ∧
    (persistPendingTime st now today ok).state.isTracking = true := by
  have hg : rollGuard st = true := by
    unfold rollGuard
    rw [hT, hS, hD]
    simp [truthyMs, truthyStr, h0, hd]
  refine ⟨?_, ?_, by rw [persist_isTracking]; exact hT⟩
  · have hpos : now - start > 0 := sub_pos.mpr hlt
    have hneg : ¬(d = "" ∨ now - start ≤ 0) := by
      push_neg
      exact ⟨hd, hpos⟩
    unfold rollForward
    rw [if_pos hg]
    dsimp only
    rw [hS, hD]
    simp only [Option.getD_some]
    rw [if_pos hpos]
    unfold addPendingTime
    dsimp only
    rw [if_neg hneg]
    exact objGetD_objSet_self _ _ _
  · rcases persist_state_cases st now today ok with he | he <;> rw [he]
    · exact rollForward_start_of_tracking st now start d hT hS h0 hD hd
    · show (rollForward st now).sessionStartTime = some now
      exact rollForward_start_of_tracking st now start d hT hS h0 hD hd

/-- Witness for the amended C4 at the spec scenario shifted to nonzero
timestamps: activity at t=1 and t=10001 on domain `"a"`, flush at
t=10001 — exactly 10000 ms is credited. -/
theorem C4_roll_forward_amended_witness :
    objGetD (rollForward c4WitnessState 10001).pendingTime "a"
      = objGetD c4WitnessState.pendingTime "a" + (10001 - 1) ∧
    (persistPendingTime c4WitnessState 10001 [] true).state.sessionStartTime = some 10001 ∧
    (persistPendingTime c4WitnessState 10001 [] true).state.isTracking = true :=
  C4_roll_forward_amended c4WitnessState 10001 [] true "a" 1 rfl rfl (by decide) rfl
    (by decide) (by decide)

/-- C5: calling `persistPendingTime` twice in a row (same instant, no
intervening activity) is idempotent: the pending buffer is empty after
the first successful call, and the second call issues no storage
write, leaves the stored daily record unchanged, and leaves the state
unchanged. -/
theorem C5_double_flush_idempotent (st : SessionState) (now : Millis)
    (today : DailyRecord) :
    (persistPendingTime st now today true).state.pendingTime = [] ∧
    (persistPendingTime (persistPendingTime st now today true).state now
        (persistPendingTime st now today true).today true).wrote = false ∧
    (persistPendingTime (persistPendingTime st now today true).state now
        (persistPendingTime st now today true).today true).today
      = (persistPendingTime st now today true).today ∧
    (persistPendingTime (persistPendingTime st now today true).state now
        (persistPendingTime st now today true).today true).state
      = (persistPendingTime st now today true).state := by
  have key := persist_of_empty_fix (persistPendingTime st now today true).state now
    (persistPendingTime st now today true).today (persist_ok_pending st now today)
    (roll_of_persist_state st now today true)
  rw [key]
  exact ⟨persist_ok_pending st now today, rfl, rfl, rfl⟩

/-- C6 counterexample: over arbitrary handler inputs the invariant
fails.  An activity signal stamped t=0 starts a session whose
`sessionStartTime` is the JS-falsy timestamp `0`; a following change
to an untrackable tab cannot finalize the session (the truthiness
guard of `finalizeCurrentSession` returns early) but still nulls
`activeDomain`, reaching a state with `isTracking = true` and
`activeDomain = null`. -/
theorem C6_counterexample :
    Reachable c6BadState ∧ c6BadState.isTracking = true ∧
    c6BadState.activeDomain = none := by
  refine ⟨?_, by decide, by decide⟩
  exact Reachable.next _ _ (Reachable.next _ _ Reachable.init)

/-- C6 (amended): for every state reachable from the initial state by
handler invocations whose inputs match real executions (positive
`Date.now()` timestamps and non-empty activity domains — `GoodEvent`),
`isTracking = true` implies `sessionStartTime` and `activeDomain` are
non-null, and every pending-buffer amount is non-negative. -/
theorem C6_invariant_good_events (s : SessionState) (h : ReachableG s) :
    (s.isTracking = true →
      s.sessionStartTime.isSome = true ∧ s.activeDomain.isSome = true) ∧
    ∀ p ∈ s.pendingTime, 0 ≤ p.2 := by
  have hs : StrongInv s := by
    induction h with
    | init => exact initial_strong
    | next s2 e hr hg ih => exact step_strong s2 e ih hg
  refine ⟨?_, hs.2⟩
  intro htr
  obtain ⟨⟨t, hS, _⟩, ⟨d, hD, _⟩⟩ := hs.1 htr
  rw [hS, hD]
  exact ⟨rfl, rfl⟩

/-- Witness for the amended C6 at a concrete reachable tracking state:
the state after one activity signal at t=1000 on domain `"a"`. -/
theorem C6_invariant_good_events_witness :
    ((step initialState (Event.activity 1 "a" 1000 [] (some (some 1)) true true true)).isTracking = true →
      (step initialState (Event.activity 1 "a" 1000 [] (some (some 1)) true true true)).sessionStartTime.isSome = true ∧
      (step initialState (Event.activity 1 "a" 1000 [] (some (some 1)) true true true)).activeDomain.isSome = true) ∧
    ∀ p ∈ (step initialState (Event.activity 1 "a" 1000 [] (some (some 1)) true true true)).pendingTime,
      0 ≤ p.2 :=
  C6_invariant_good_events _
    (ReachableG.next _ _ ReachableG.init
      (show (0 : Millis) < 1000 ∧ "a" ≠ "" from ⟨by norm_num, by decide⟩))

/-- C7: `getDomainStatus` for a domain with `{limit: 60000, period:
"day"}` and 70000 ms recorded today (no pending or live-session time)
returns `hasLimit = true`, `limitExceeded = true`, `exceededBy =
10000`.  For period `"day"` the range read of `getTimeForPeriod` is
exactly today's record. -/
theorem C7_domain_status_scenario :
    (getDomainStatus initialState 0 [("x", ⟨60000, "day"⟩)] [("x", 70000)]
        [[("x", 70000)]] "x").hasLimit = true ∧
    (getDomainStatus initialState 0 [("x", ⟨60000, "day"⟩)] [("x", 70000)]
        [[("x", 70000)]] "x").limitExceeded = true ∧
    (getDomainStatus initialState 0 [("x", ⟨60000, "day"⟩)] [("x", 70000)]
        [[("x", 70000)]] "x").exceededBy = some 10000 := by decide

/-- C8: `getLimits` maps every stored entry through the migration that
turns a legacy bare number `n` into `{limit: n, period: "day"}` and
keeps structured entries unchanged, preserving keys and order and
issuing no storage write (the embedding is a pure function of the
single value read). -/
theorem C8_getLimits_migration (raw : List (Domain × LimitValue))
    (hnd : (raw.map Prod.fst).Nodup) :
    getLimits raw = raw.map (fun p => (p.1, migrateLimitValue p.2)) := by
  unfold getLimits
  simpa using getLimits_foldl_aux raw []
    (by intro p hp q hq; simp at hq) hnd

/-- Witness for C8 at the spec's concrete legacy table: `{domain:
600000}` reads back as `{domain: {limit: 600000, period: "day"}}`. -/
theorem C8_getLimits_migration_witness :
    (([("x", LimitValue.num 600000)].map Prod.fst).Nodup) ∧
    getLimits [("x", LimitValue.num 600000)]
      = [("x", LimitValue.num 600000)].map (fun p => (p.1, migrateLimitValue p.2)) :=
  ⟨by simp, C8_getLimits_migration _ (by simp)⟩

/-- C9: the retention cleanup removes a stored entry exactly when its
key carries the daily prefix and its date part satisfies the
older-than-cutoff test (the `Date` comparison is the abstracted
predicate `isOld`); every other entry — in particular the `limits` key
and in-range daily keys — survives unchanged, and the removed key list
is exactly the matching keys. -/
theorem C9_cleanup_exact (store : List (String × StoreVal)) (isOld : String → Bool)
    (k : String) (v : StoreVal) :
    ((k, v) ∈ (cleanupOldData store isOld).1 ↔
      (k, v) ∈ store ∧
      ¬((k.startsWith DAILY_TAG && isOld (k.drop DAILY_TAG.length)) = true)) ∧
    (k ∈ (cleanupOldData store isOld).2 ↔
      k ∈ store.map Prod.fst ∧
      (k.startsWith DAILY_TAG && isOld (k.drop DAILY_TAG.length)) = true) :=
  ⟨cleanup_store_mem store isOld k v, cleanup_keysToRemove_mem store isOld k⟩

/-- C10: in `getDomainStatus` the exceeded test is strict:
`limitExceeded` holds exactly when the period time strictly exceeds the
configured limit; `exceededBy` is the positive overshoot and `0`
otherwise; `remainingTime` is clamped at `0`; and at
`periodTime = limit` the result is not exceeded with `exceededBy = 0`
and `remainingTime = 0`. -/
theorem C10_limit_strict (st : SessionState) (now : Millis)
    (limits : List (Domain × LimitCfg)) (todayData : DailyRecord)
    (rangeRecords : List DailyRecord) (domain : Domain) (cfg : LimitCfg)
    (hdom : domain ≠ "") (hl : objGet limits domain = some cfg) :
    ((getDomainStatus st now limits todayData rangeRecords domain).limitExceeded = true ↔
      cfg.limit < getTimeForPeriod st now rangeRecords domain) ∧
    (getDomainStatus st now limits todayData rangeRecords domain).exceededBy
      = some (if cfg.limit < getTimeForPeriod st now rangeRecords domain then
          getTimeForPeriod st now rangeRecords domain - cfg.limit else 0) ∧
    (getDomainStatus st now limits todayData rangeRecords domain).remainingTime
      = some (max 0 (cfg.limit - getTimeForPeriod st now rangeRecords domain)) ∧
    (getTimeForPeriod st now rangeRecords domain = cfg.limit →
      (getDomainStatus st now limits todayData rangeRecords domain).limitExceeded = false ∧
      (getDomainStatus st now limits todayData rangeRecords domain).exceededBy = some 0 ∧
      (getDomainStatus st now limits todayData rangeRecords domain).remainingTime = some 0) := by
  unfold getDomainStatus
  rw [if_neg hdom]
  dsimp only
  rw [hl]
  dsimp only
  refine ⟨by simp, by simp, rfl, ?_⟩
  intro heq
  rw [heq]
  refine ⟨by simp, by simp, by simp⟩

/-- Witness for C10 at the boundary input: limit 60000 with exactly
60000 ms of period time. -/
theorem C10_limit_strict_witness :
    (((getDomainStatus initialState 0 [("x", ⟨60000, "day"⟩)] [("x", 60000)]
        [[("x", 60000)]] "x").limitExceeded = true ↔
      (60000 : Millis) < getTimeForPeriod initialState 0 [[("x", 60000)]] "x") ∧
    (getDomainStatus initialState 0 [("x", ⟨60000, "day"⟩)] [("x", 60000)]
        [[("x", 60000)]] "x").exceededBy
      = some (if (60000 : Millis) < getTimeForPeriod initialState 0 [[("x", 60000)]] "x" then
          getTimeForPeriod initialState 0 [[("x", 60000)]] "x" - 60000 else 0) ∧
    (getDomainStatus initialState 0 [("x", ⟨60000, "day"⟩)] [("x", 60000)]
        [[("x", 60000)]] "x").remainingTime
      = some (max 0 (60000 - getTimeForPeriod initialState 0 [[("x", 60000)]] "x")) ∧
    (getTimeForPeriod initialState 0 [[("x", 60000)]] "x" = 60000 →
      (getDomainStatus initialState 0 [("x", ⟨60000, "day"⟩)] [("x", 60000)]
          [[("x", 60000)]] "x").limitExceeded = false ∧
      (getDomainStatus initialState 0 [("x", ⟨60000, "day"⟩)] [("x", 60000)]
          [[("x", 60000)]] "x").exceededBy = some 0 ∧
      (getDomainStatus initialState 0 [("x", ⟨60000, "day"⟩)] [("x", 60000)]
          [[("x", 60000)]] "x").remainingTime = some 0)) :=
  C10_limit_strict initialState 0 [("x", ⟨60000, "day"⟩)] [("x", 60000)]
    [[("x", 60000)]] "x" ⟨60000, "day"⟩ (by decide) (by decide)
